import Mathlib

/-!
Shallow embedding of the request-guard pipeline of the semantic-docs
repository: the CSRF origin validator and the fixed-window rate limiter
that gate the `/api/search.json` endpoint, together with the slices of the
`POST`/`GET` handlers that the verified properties mention.

Conventions of the embedding:
* times are integers in milliseconds (`Date.now()` values);
* a nullable JavaScript string (`headers.get(...)`) is `Option String`;
* a thrown exception is `Except.error`;
* the in-process rate-limit `Map` is an association list whose `get`,
  `set` and `delete` follow the JavaScript `Map` semantics.
-/

namespace SemanticDocs

/-- ASCII whitespace accepted by JavaScript `trim` and leading-space
skipping in `parseInt`. -/
def isJsWhitespace (c : Char) : Bool :=
  c = ' ' || c = '\t' || c = '\n' || c = '\r' || c = '\x0b' || c = '\x0c'

/-- Model of JavaScript `String.prototype.trim` over the character list. -/
def jsTrim (cs : List Char) : List Char :=
  ((cs.dropWhile isJsWhitespace).reverse.dropWhile isJsWhitespace).reverse

/-- Model of JavaScript `split` with a single-character separator
(`"".split(sep)` gives `[""]`, as in JavaScript). -/
def splitOnChar (sep : Char) : List Char → List (List Char)
  | [] => [[]]
  | c :: rest =>
    let r := splitOnChar sep rest
    if c = sep then [] :: r
    else
      match r with
      | h :: t => (c :: h) :: t
      | [] => [[c]]

/-- Digit-string value (the strings fed to it are checked to be decimal
digits beforehand). -/
def digitsToNat (cs : List Char) : Nat :=
  cs.foldl (fun a c => 10 * a + (c.toNat - 48)) 0

/-- Model of a constructed WHATWG `URL` object, restricted to the fields
that determine `URL.origin` for `http`/`https` URLs: the lowercased scheme
and host, and the port when present and different from the scheme default. -/
structure URLRec where
  scheme : String
  host : String
  port : Option Nat
deriving DecidableEq, Repr

/-- Model of the `URL.origin` getter: `scheme://host` with `:port` appended
when a non-default port is present. -/
def URLRec.origin (u : URLRec) : String :=
  u.scheme ++ "://" ++ u.host ++
    (match u.port with
     | none => ""
     | some p => ":" ++ toString p)

/-- Recognise a leading `https://` or `http://` and return the rest
(used both by the URL model and by the localhost patterns). -/
def dropHttpScheme (cs : List Char) : Option (List Char) :=
  if cs.take 8 = "https://".data then some (cs.drop 8)
  else if cs.take 7 = "http://".data then some (cs.drop 7)
  else none

/-- Split `host[:port]` within an authority; a bracketed IPv6 host keeps its
brackets (as `URL.host` does); `none` models an authority the URL parser
rejects.  The second component is `none` when no colon follows the host and
`some digits` when one does. -/
def splitHostPort (hp : List Char) : Option (List Char × Option (List Char)) :=
  match hp with
  | '[' :: rest =>
    let inside := rest.takeWhile (fun c => c ≠ ']')
    match rest.dropWhile (fun c => c ≠ ']') with
    | ']' :: tail =>
      if inside = [] then none
      else
        match tail with
        | [] => some ('[' :: (inside ++ [']']), none)
        | ':' :: p => some ('[' :: (inside ++ [']']), some p)
        | _ => none
    | _ => none
  | _ =>
    if hp.any (fun c => c = '[') || hp.any (fun c => c = ']') then none
    else
      let host := hp.takeWhile (fun c => c ≠ ':')
      match hp.dropWhile (fun c => c ≠ ':') with
      | ':' :: p => if p.any (fun c => c = ':') then none else some (host, some p)
      | _ => some (host, none)

/-- Characters that make a plain (non-bracketed) host invalid. -/
def hostCharOk (c : Char) : Bool :=
  ¬ (c = ' ' || c = '/' || c = '?' || c = '#' || c = '@' || c = ':' || c = '[' || c = ']')

/-- Default port of an `http(s)` scheme. -/
def defaultPort (scheme : String) : Nat :=
  if scheme = "https" then 443 else 80

/-- Model of `new URL(s)` restricted to absolute `http(s)://...` URLs,
keeping the fields that determine `.origin`; `none` models the constructor
throwing a `TypeError`.  As the URL parser does, it lowercases the scheme
and host, drops userinfo, path, query and fragment, and drops an empty or
scheme-default port.  The model covers ASCII hosts written in
`scheme://authority...` form, which is the shape of this validator's
inputs. -/
def parseHttpUrl (s : String) : Option URLRec :=
  let cs := s.data.map Char.toLower
  match dropHttpScheme cs with
  | none => none
  | some rest =>
    let scheme : String := if cs.take 8 = "https://".data then "https" else "http"
    let authority := rest.takeWhile (fun c => ¬ (c = '/' || c = '?' || c = '#'))
    let hostport := (splitOnChar '@' authority).getLastD []
    match splitHostPort hostport with
    | none => none
    | some (host, portPart) =>
      let plainHostOk : Bool :=
        match host with
        | '[' :: _ => true
        | _ => host.all hostCharOk
      if host = [] then none
      else if ¬ plainHostOk then none
      else
        match portPart with
        | none => some ⟨scheme, ⟨host⟩, none⟩
        | some [] => some ⟨scheme, ⟨host⟩, none⟩
        | some p =>
          if p.all Char.isDigit then
            let n := digitsToNat p
            if n > 65535 then none
            else if n = defaultPort scheme then some ⟨scheme, ⟨host⟩, none⟩
            else some ⟨scheme, ⟨host⟩, some n⟩
          else none

/-- The request headers the guard pipeline reads; a field is `none` when
`request.headers.get(...)` would return `null`. -/
structure Request where
  origin : Option String := none
  referer : Option String := none
  cfConnectingIp : Option String := none
  xRealIp : Option String := none
  xForwardedFor : Option String := none
deriving DecidableEq, Repr

/-- The `ValidateOriginEnv` interface of `search.json.ts`. -/
structure ValidateOriginEnv where
  isDevelopment : Bool
  isTest : Bool
deriving DecidableEq, Repr

/-- JavaScript truthiness of a nullable string (`null` and `""` are falsy). -/
def truthy : Option String → Bool
  | none => false
  | some s => s ≠ ""

/-- The request-origin computation of `validateOrigin`:
`origin || (referer ? new URL(referer).origin : null)`.
`Except.error` models the `new URL` constructor throwing on a malformed
referer, which propagates out of `validateOrigin`. -/
def requestOriginOf (r : Request) : Except Unit (Option String) :=
  if truthy r.origin then .ok r.origin
  else if truthy r.referer then
    match parseHttpUrl (r.referer.getD "") with
    | some u => .ok (some u.origin)
    | none => .error ()
  else .ok none

/-- Match of the anchored pattern `https?://H(:[0-9]+)?` for a literal
host H against the tail after the scheme. -/
def optPortTail (cs : List Char) : Bool :=
  match cs with
  | [] => true
  | ':' :: p => p ≠ [] && p.all Char.isDigit
  | _ => false

/-- One localhost pattern of `validateOrigin`: the anchored, case-sensitive
regular expression `https?://H(:d+)?` for the literal host `H`. -/
def matchesLocalhostPattern (hostLit : List Char) (s : String) : Bool :=
  match dropHttpScheme s.data with
  | some rest => rest.take hostLit.length = hostLit && optPortTail (rest.drop hostLit.length)
  | none => false

/-- The three `localhostPatterns` of `validateOrigin`. -/
def localhostPatterns : List (List Char) :=
  ["localhost".data, "127.0.0.1".data, "[::1]".data]

/-- Whether `requestOrigin` matches some localhost pattern. -/
def isLocalhostOrigin (s : String) : Bool :=
  localhostPatterns.any (fun h => matchesLocalhostPattern h s)

/-- The `validateOrigin` function of the search endpoint
(`validateOrigin(request, siteUrl?, envOverride?)`): prefer the `Origin`
header, else derive an origin from `Referer` (throwing on a malformed one);
with no origin, allow only in development/test; allow an origin equal to
`siteUrl.origin`; otherwise allow only localhost origins in
development/test. -/
def validateOrigin (r : Request) (siteUrl : Option URLRec)
    (env : ValidateOriginEnv) : Except Unit Bool :=
  match requestOriginOf r with
  | .error e => .error e
  | .ok none => .ok (env.isDevelopment || env.isTest)
  | .ok (some ro) =>
    if (match siteUrl with
        | some u => ro = u.origin
        | none => false : Bool) then .ok true
    else if env.isDevelopment || env.isTest then .ok (isLocalhostOrigin ro)
    else .ok false

/-! ### Origin-validator theorems -/

/-- C1: in production mode (`isDevelopment = false`, `isTest = false`),
whenever the request origin (from the `Origin` header or derived from
`Referer`) differs from the configured site origin — which covers every
proper superstring, substring, sibling subdomain and typosquat of it —
`validateOrigin` returns `false`: matching is exact-origin equality, never
substring, suffix or prefix containment. -/
theorem validateOrigin_production_exact_only
    (r : Request) (site : URLRec) (o : String)
    (hro : requestOriginOf r = .ok (some o)) (hne : o ≠ site.origin) :
    validateOrigin r (some site) ⟨false, false⟩ = .ok false := by
  unfold validateOrigin
  rw [hro]
  simp [hne]

/-- Witness for C1 on the three spec candidates against site
`https://example.com`. -/
theorem validateOrigin_production_exact_only_witness :
    validateOrigin {origin := some "https://evil.example.com"}
      (some ⟨"https", "example.com", none⟩) ⟨false, false⟩ = .ok false
  ∧ validateOrigin {origin := some "https://example.com.evil.com"}
      (some ⟨"https", "example.com", none⟩) ⟨false, false⟩ = .ok false
  ∧ validateOrigin {origin := some "https://examp1e.com"}
      (some ⟨"https", "example.com", none⟩) ⟨false, false⟩ = .ok false :=
  ⟨validateOrigin_production_exact_only _ _ "https://evil.example.com" (by rfl) (by decide),
   validateOrigin_production_exact_only _ _ "https://example.com.evil.com" (by rfl) (by decide),
   validateOrigin_production_exact_only _ _ "https://examp1e.com" (by rfl) (by decide)⟩

/-- C3 counterexample: for the site URL `https://example.com` (whose
`.origin` is `https://example.com`), the `Origin` header values
`https://EXAMPLE.COM` and `https://example.com:443` are rejected in
production: the raw `Origin` header string is compared with `===` and is
never itself normalized, so the claimed case-insensitive / default-port
acceptance fails. -/
theorem validateOrigin_normalization_counterexample :
    parseHttpUrl "https://example.com" = some ⟨"https", "example.com", none⟩
  ∧ validateOrigin {origin := some "https://EXAMPLE.COM"}
      (some ⟨"https", "example.com", none⟩) ⟨false, false⟩ = .ok false
  ∧ validateOrigin {origin := some "https://example.com:443"}
      (some ⟨"https", "example.com", none⟩) ⟨false, false⟩ = .ok false :=
  ⟨by rfl, by rfl, by rfl⟩

/-- C3 amended: if the request origin string (raw `Origin` header, or the
origin serialized from `Referer`) is literally equal to `siteUrl.origin` —
the already-normalized serialization produced by the `URL` object — then
`validateOrigin` returns `true` regardless of environment mode. -/
theorem validateOrigin_exact_match_allows
    (r : Request) (site : URLRec) (env : ValidateOriginEnv) (o : String)
    (hro : requestOriginOf r = .ok (some o)) (heq : o = site.origin) :
    validateOrigin r (some site) env = .ok true := by
  unfold validateOrigin
  rw [hro]
  simp [heq]

/-- Witness for the amended C3: the normalized spelling is accepted in
production mode. -/
theorem validateOrigin_exact_match_allows_witness :
    validateOrigin {origin := some "https://example.com"}
      (some ⟨"https", "example.com", none⟩) ⟨false, false⟩ = .ok true :=
  validateOrigin_exact_match_allows _ _ _ "https://example.com" (by rfl) (by rfl)

/-- C5: when the `Origin` header is absent (or empty) and the `Referer`
header is present but not a parseable URL, `validateOrigin` throws — the
error propagates to the caller instead of returning a boolean. -/
theorem validateOrigin_malformed_referer_errors
    (r : Request) (siteUrl : Option URLRec) (env : ValidateOriginEnv)
    (ho : truthy r.origin = false) (hr : truthy r.referer = true)
    (hp : parseHttpUrl (r.referer.getD "") = none) :
    validateOrigin r siteUrl env = .error () := by
  unfold validateOrigin requestOriginOf
  simp [ho, hr, hp]

/-- Witness for C5: the referer `not-a-valid-url` from the repository's own
test suite. -/
theorem validateOrigin_malformed_referer_errors_witness :
    validateOrigin {referer := some "not-a-valid-url"}
      (some ⟨"https", "example.com", none⟩) ⟨false, false⟩ = .error () :=
  validateOrigin_malformed_referer_errors _ _ _ (by rfl) (by rfl) (by rfl)

/-! ### Rate limiter: data model (`src/middleware/rateLimit.ts`) -/

/-- The closed set of trusted proxy header names. -/
inductive TrustedProxyHeader where
  | cfConnectingIp
  | xRealIp
  | xForwardedFor
deriving DecidableEq, Repr

/-- The `RateLimitConfig` interface. -/
structure RateLimitConfig where
  maxRequests : Int
  windowSeconds : Int
  trustedProxyHeader : Option TrustedProxyHeader := none
deriving DecidableEq, Repr

/-- The `RateLimitResult` interface. -/
structure RateLimitResult where
  allowed : Bool
  limit : Int
  remaining : Int
  resetTime : Int
deriving DecidableEq, Repr

/-- A `RateLimitEntry` of the store; the count is only ever created at `0`
and incremented, hence a `Nat`. -/
structure RateLimitEntry where
  count : Nat
  resetTime : Int
deriving DecidableEq, Repr

/-- First alternative of the IPv4 octet group: `25[0-5]`. -/
def octetAlt1 : List Char → Bool
  | ['2', '5', c] => '0' ≤ c && c ≤ '5'
  | _ => false

/-- Second alternative of the IPv4 octet group: `2[0-4][0-9]`. -/
def octetAlt2 : List Char → Bool
  | ['2', c, d] => '0' ≤ c && c ≤ '4' && d.isDigit
  | _ => false

/-- Third alternative of the IPv4 octet group: `[01]?[0-9][0-9]?`. -/
def octetAlt3 : List Char → Bool
  | [c] => c.isDigit
  | [c, d] => ((c = '0' || c = '1') && d.isDigit) || (c.isDigit && d.isDigit)
  | [c, d, e] => (c = '0' || c = '1') && d.isDigit && e.isDigit
  | _ => false

/-- An IPv4 octet group of the regex. -/
def isIpv4Octet (cs : List Char) : Bool :=
  octetAlt1 cs || octetAlt2 cs || octetAlt3 cs

/-- The anchored IPv4 regex of `isValidIpAddress`: four octet groups joined
by literal dots — equivalently, splitting at the dots yields exactly four
parts, each matching the octet pattern (no other part may contain a dot). -/
def matchesIpv4 (cs : List Char) : Bool :=
  let parts := splitOnChar '.' cs
  parts.length = 4 && parts.all isIpv4Octet

/-- A hexet `[a-fA-F0-9]{1,4}` of the IPv6 regex. -/
def isHexet (cs : List Char) : Bool :=
  cs ≠ [] && cs.length ≤ 4 && cs.all (fun c => c.isDigit || ('a' ≤ c && c ≤ 'f') || ('A' ≤ c && c ≤ 'F'))

/-- The anchored (simplified) IPv6 regex of `isValidIpAddress`, written
through the colon-separated parts of the candidate; each regex alternative
corresponds to one shape of the part list (`h` is a hexet):
* `(h:){7}h` — eight hexet parts;
* `::(h:){0,6}h` — two leading empty parts, then one to seven hexets;
* `(h:){1,7}:` — one to seven hexets, then two trailing empty parts;
* the six alternatives `(h:){1,m}(:h){1,k}` with `m + k ≤ 7` — hexet parts
  with exactly one internal empty part and at most eight parts in total. -/
def matchesIpv6 (cs : List Char) : Bool :=
  let parts := splitOnChar ':' cs
  (parts.length = 8 && parts.all isHexet)
  || (match parts with
      | [] :: [] :: rest => rest.length ≥ 1 && rest.length ≤ 7 && rest.all isHexet
      | _ => false)
  || (match parts.reverse with
      | [] :: [] :: rest => rest.length ≥ 1 && rest.length ≤ 7 && rest.all isHexet
      | _ => false)
  || (parts.length ≥ 3 && parts.length ≤ 8
      && parts.count [] = 1 && parts.headD [' '] ≠ [] && parts.getLastD [' '] ≠ []
      && (parts.filter (fun p => p ≠ [])).all isHexet)

/-- The `isValidIpAddress` helper: the candidate matches the IPv4 regex or
the simplified IPv6 regex. -/
def isValidIpAddress (ip : String) : Bool :=
  matchesIpv4 ip.data || matchesIpv6 ip.data

/-- The per-request fallback identifier
`unknown-[Date.now()]-[Math.random().toString(36).slice(2)]`; the random
component is supplied as the explicit parameter `rand`. -/
def fallbackId (now : Nat) (rand : String) : String :=
  "unknown-" ++ toString now ++ "-" ++ rand

/-- The `getClientId` helper: with a configured trusted header, read that
header (for `x-forwarded-for`, the first comma-separated entry, trimmed);
return the candidate when it is truthy and a valid IP literal, otherwise
the per-request fallback identifier. -/
def getClientId (r : Request) (trustedProxyHeader : Option TrustedProxyHeader)
    (now : Nat) (rand : String) : String :=
  let fresh := fallbackId now rand
  match trustedProxyHeader with
  | none => fresh
  | some h =>
    let proxyIp : Option String :=
      match h with
      | .cfConnectingIp => r.cfConnectingIp
      | .xRealIp => r.xRealIp
      | .xForwardedFor =>
        r.xForwardedFor.map (fun v => ⟨jsTrim ((splitOnChar ',' v.data).headD [])⟩)
    match proxyIp with
    | some ip => if ip ≠ "" && isValidIpAddress ip then ip else fresh
    | none => fresh

/-- The process-wide `rateLimitStore` map, as an association list with
JavaScript `Map` semantics (insertion order kept, keys unique). -/
abbrev RateLimitStore := List (String × RateLimitEntry)

/-- `Map.get`: the value of the first (only) matching key. -/
def storeGet : RateLimitStore → String → Option RateLimitEntry
  | [], _ => none
  | (k', v') :: rest, k => if k' = k then some v' else storeGet rest k

/-- `Map.set`: replace the entry of an existing key in place, else append. -/
def storeSet : RateLimitStore → String → RateLimitEntry → RateLimitStore
  | [], k, v => [(k, v)]
  | (k', v') :: rest, k, v =>
    if k' = k then (k, v) :: rest else (k', v') :: storeSet rest k v

/-- The keys of the store. -/
def storeKeys (s : RateLimitStore) : List String :=
  s.map Prod.fst

/-- Body of `checkRateLimit` after client identification: look the entry
up; recreate it with `count = 0` and `resetTime = now + windowMs` when it
is missing or expired (`now > resetTime`); increment the count (a mutation
of the stored object, modelled by writing the incremented entry back);
report `allowed = count ≤ maxRequests` and
`remaining = max(0, maxRequests − count)`. -/
def checkRateLimitFor (clientId : String) (now : Int) (config : RateLimitConfig)
    (store : RateLimitStore) : RateLimitResult × RateLimitStore :=
  let windowMs := config.windowSeconds * 1000
  let entry :=
    match storeGet store clientId with
    | some e => if now > e.resetTime then (⟨0, now + windowMs⟩ : RateLimitEntry) else e
    | none => (⟨0, now + windowMs⟩ : RateLimitEntry)
  let entry : RateLimitEntry := ⟨entry.count + 1, entry.resetTime⟩
  (⟨(entry.count : Int) ≤ config.maxRequests, config.maxRequests,
    max 0 (config.maxRequests - (entry.count : Int)), entry.resetTime⟩,
   storeSet store clientId entry)

/-- The exported `checkRateLimit(request, config)`: identify the client,
then run the window algorithm on the shared store; `now` is the
`Date.now()` value of the call and `rand` the random draw of a potential
fallback identifier. -/
def checkRateLimit (r : Request) (now : Nat) (rand : String)
    (config : RateLimitConfig) (store : RateLimitStore) :
    RateLimitResult × RateLimitStore :=
  checkRateLimitFor (getClientId r config.trustedProxyHeader now rand)
    (now : Int) config store

/-- The periodic cleanup sweep (the `setInterval` body): delete every entry
whose `resetTime` has passed. -/
def cleanupSweep (now : Int) (store : RateLimitStore) : RateLimitStore :=
  store.filter (fun kv => ¬ (now > kv.2.resetTime))

/-! ### Client identification theorems -/

/-- Decimal digit characters are decimal digits. -/
lemma digitChar_isDigit {m : Nat} (h : m < 10) : (Nat.digitChar m).isDigit = true := by
  interval_cases m <;> rfl

/-- All characters emitted by `Nat.toDigitsCore` in base 10 are decimal
digits, provided the accumulator holds only digits. -/
lemma toDigitsCore_all_digits (f : Nat) :
    ∀ (n : Nat) (acc : List Char), (∀ c ∈ acc, c.isDigit = true) →
    ∀ c ∈ Nat.toDigitsCore 10 f n acc, c.isDigit = true := by
  induction f with
  | zero => intro n acc hacc; simpa [Nat.toDigitsCore] using hacc
  | succ f ih =>
    intro n acc hacc c hc
    rw [Nat.toDigitsCore] at hc
    by_cases h : n / 10 = 0
    · rw [if_pos h] at hc
      rcases List.mem_cons.mp hc with hc | hc
      · subst hc; exact digitChar_isDigit (Nat.mod_lt _ (by omega))
      · exact hacc _ hc
    · rw [if_neg h] at hc
      refine ih (n / 10) (Nat.digitChar (n % 10) :: acc) ?_ c hc
      intro c' hc'
      rcases List.mem_cons.mp hc' with hc' | hc'
      · subst hc'; exact digitChar_isDigit (Nat.mod_lt _ (by omega))
      · exact hacc _ hc'

/-- All characters of the decimal rendering of a natural number are
decimal digits. -/
lemma repr_data_digits (n : Nat) : ∀ c ∈ (Nat.repr n).data, c.isDigit = true :=
  toDigitsCore_all_digits (n + 1) n [] (by simp)

/-- Splitting two lists at a separator character that occurs in neither
left part: equal concatenations have equal parts. -/
lemma append_sep_inj {sep : Char} :
    ∀ (d1 d2 t1 t2 : List Char), (∀ c ∈ d1, c ≠ sep) → (∀ c ∈ d2, c ≠ sep) →
    d1 ++ sep :: t1 = d2 ++ sep :: t2 → d1 = d2 ∧ t1 = t2 := by
  intro d1
  induction d1 with
  | nil =>
    intro d2 t1 t2 _ h2 h
    cases d2 with
    | nil => simpa using h
    | cons b bs =>
      simp only [List.nil_append, List.cons_append, List.cons.injEq] at h
      exact absurd h.1.symm (h2 b (by simp))
  | cons a as ih =>
    intro d2 t1 t2 h1 h2 h
    cases d2 with
    | nil =>
      simp only [List.nil_append, List.cons_append, List.cons.injEq] at h
      exact absurd h.1 (h1 a (by simp))
    | cons b bs =>
      simp only [List.cons_append, List.cons.injEq] at h
      obtain ⟨rfl, h⟩ := h
      obtain ⟨h3, h4⟩ := ih bs t1 t2 (fun c hc => h1 c (by simp [hc]))
        (fun c hc => h2 c (by simp [hc])) h
      exact ⟨by rw [h3], h4⟩

/-- Two fallback identifiers agree only if their random components agree:
the decimal timestamp part contains no dash, so the dash after it
delimits the random part unambiguously. -/
lemma fallbackId_rand_inj (n1 n2 : Nat) (a1 a2 : String)
    (h : fallbackId n1 a1 = fallbackId n2 a2) : a1 = a2 := by
  have hd := congrArg String.data h
  simp only [fallbackId, String.data_append] at hd
  have hno : ∀ (n : Nat), ∀ c ∈ (toString n).data, c ≠ '-' := by
    intro n c hc he
    have := repr_data_digits n c hc
    subst he
    simp at this
  have hd' : (toString n1).data ++ '-' :: a1.data
      = (toString n2).data ++ '-' :: a2.data := by
    have hu : ['u', 'n', 'k', 'n', 'o', 'w', 'n', '-']
          ++ ((toString n1).data ++ '-' :: a1.data)
        = ['u', 'n', 'k', 'n', 'o', 'w', 'n', '-']
          ++ ((toString n2).data ++ '-' :: a2.data) := by
      simpa [List.append_assoc] using hd
    exact List.append_cancel_left hu
  exact String.ext (append_sep_inj (toString n1).data (toString n2).data
    a1.data a2.data (hno n1) (hno n2) hd').2

/-- Unfolding of `getClientId` in the `x-forwarded-for` configuration with
the header present. -/
lemma getClientId_xff (r : Request) (v : String) (now : Nat) (rand : String)
    (hv : r.xForwardedFor = some v) :
    getClientId r (some .xForwardedFor) now rand =
      (if (⟨jsTrim ((splitOnChar ',' v.data).headD [])⟩ : String) ≠ ""
          && isValidIpAddress ⟨jsTrim ((splitOnChar ',' v.data).headD [])⟩
       then (⟨jsTrim ((splitOnChar ',' v.data).headD [])⟩ : String)
       else fallbackId now rand) := by
  unfold getClientId
  rw [hv]
  rfl

/-- C4: with `trustedProxyHeader = x-forwarded-for`, the client id is the
first comma-separated entry of the header, trimmed, when that entry is a
non-empty valid IPv4/IPv6 literal; otherwise (invalid literal, missing
header, or no configured trusted header) it is the per-request fallback
identifier, and fallback identifiers with distinct random components are
distinct, so unidentifiable requests are never coalesced. -/
theorem getClientId_forwarded_for_spec :
    (∀ (r : Request) (v cand : String) (now : Nat) (rand : String),
      r.xForwardedFor = some v →
      cand = (⟨jsTrim ((splitOnChar ',' v.data).headD [])⟩ : String) →
      (¬ cand = "" → isValidIpAddress cand = true →
        getClientId r (some .xForwardedFor) now rand = cand)
      ∧ (cand = "" ∨ isValidIpAddress cand = false →
        getClientId r (some .xForwardedFor) now rand = fallbackId now rand))
  ∧ (∀ (r : Request) (now : Nat) (rand : String), r.xForwardedFor = none →
      getClientId r (some .xForwardedFor) now rand = fallbackId now rand)
  ∧ (∀ (r : Request) (now : Nat) (rand : String),
      getClientId r none now rand = fallbackId now rand)
  ∧ (∀ (n1 n2 : Nat) (a1 a2 : String),
      fallbackId n1 a1 = fallbackId n2 a2 → a1 = a2) := by
  refine ⟨?_, ?_, ?_, fallbackId_rand_inj⟩
  · intro r v cand now rand hv hc
    rw [getClientId_xff r v now rand hv, ← hc]
    constructor
    · intro hne hvalid
      simp [hne, hvalid]
    · intro hbad
      rcases hbad with hbad | hbad <;> simp [hbad]
  · intro r now rand hv
    unfold getClientId
    rw [hv]
    rfl
  · intro r now rand
    rfl

/-- Witness for C4: a valid first entry is used verbatim; an invalid one
falls back to the generated identifier; distinct random draws give
distinct identifiers. -/
theorem getClientId_forwarded_for_spec_witness :
    getClientId {xForwardedFor := some " 1.2.3.4 , 10.0.0.1"}
      (some .xForwardedFor) 5 "k7f2q" = "1.2.3.4"
  ∧ getClientId {xForwardedFor := some "invalid-ip-address"}
      (some .xForwardedFor) 5 "k7f2q" = fallbackId 5 "k7f2q"
  ∧ getClientId {} (some .xForwardedFor) 5 "k7f2q" = fallbackId 5 "k7f2q" :=
  ⟨(getClientId_forwarded_for_spec.1 _ " 1.2.3.4 , 10.0.0.1" "1.2.3.4" 5 "k7f2q"
      rfl (by rfl)).1 (by decide) (by decide),
   (getClientId_forwarded_for_spec.1 _ "invalid-ip-address" "invalid-ip-address" 5 "k7f2q"
      rfl (by rfl)).2 (Or.inr (by decide)),
   getClientId_forwarded_for_spec.2.1 _ 5 "k7f2q" rfl⟩

/-! ### Rate limiter: store lemmas -/

/-- Setting a key makes it retrievable. -/
lemma storeGet_set_self (s : RateLimitStore) (k : String) (v : RateLimitEntry) :
    storeGet (storeSet s k v) k = some v := by
  induction s with
  | nil => simp [storeSet, storeGet]
  | cons hd tl ih =>
    obtain ⟨k', v'⟩ := hd
    by_cases h : k' = k
    · simp [storeSet, h, storeGet]
    · simp [storeSet, h, storeGet, ih]

/-- Setting a key leaves other keys unchanged. -/
lemma storeGet_set_ne (s : RateLimitStore) (k k' : String) (v : RateLimitEntry)
    (h : k ≠ k') : storeGet (storeSet s k v) k' = storeGet s k' := by
  induction s with
  | nil => simp [storeSet, storeGet, h]
  | cons hd tl ih =>
    obtain ⟨k'', v''⟩ := hd
    by_cases h2 : k'' = k
    · subst h2
      simp [storeSet, storeGet, h]
    · simp [storeSet, h2, storeGet, ih]

/-- Keys after a set: unchanged when the key was present, appended when
new. -/
lemma storeKeys_set (s : RateLimitStore) (k : String) (v : RateLimitEntry) :
    storeKeys (storeSet s k v)
      = if k ∈ storeKeys s then storeKeys s else storeKeys s ++ [k] := by
  induction s with
  | nil => simp [storeSet, storeKeys]
  | cons hd tl ih =>
    obtain ⟨k', v'⟩ := hd
    by_cases h : k' = k
    · simp [storeSet, h, storeKeys]
    · have : (k ∈ storeKeys ((k', v') :: tl)) = (k ∈ storeKeys tl) := by
        simp [storeKeys, Ne.symm h]
      simp only [storeSet, if_neg h, storeKeys, List.map_cons] at *
      rw [ih]
      by_cases hm : k ∈ storeKeys tl
      · simp [storeKeys] at hm ⊢
        simp [hm, Ne.symm h]
      · simp [storeKeys] at hm ⊢
        simp [hm, Ne.symm h]

/-- A set preserves distinctness of the keys. -/
lemma storeKeys_set_nodup (s : RateLimitStore) (k : String) (v : RateLimitEntry)
    (h : (storeKeys s).Nodup) : (storeKeys (storeSet s k v)).Nodup := by
  rw [storeKeys_set]
  by_cases hm : k ∈ storeKeys s
  · simpa [hm] using h
  · simp only [if_neg hm]
    simp [List.nodup_append, h, hm]

/-- The sweep only filters, so distinct keys stay distinct. -/
lemma storeKeys_cleanup_nodup (now : Int) (s : RateLimitStore)
    (h : (storeKeys s).Nodup) : (storeKeys (cleanupSweep now s)).Nodup :=
  h.sublist (List.Sublist.map Prod.fst (List.filter_sublist s))

/-- An absent key looks up to nothing. -/
lemma storeGet_eq_none_of_not_mem (s : RateLimitStore) (k : String)
    (h : k ∉ storeKeys s) : storeGet s k = none := by
  induction s with
  | nil => rfl
  | cons hd tl ih =>
    obtain ⟨k', v'⟩ := hd
    simp only [storeKeys, List.map_cons, List.mem_cons, not_or] at h
    simp [storeGet, Ne.symm h.1, ih (by simpa [storeKeys] using h.2)]

/-- The sweep never adds keys. -/
lemma storeKeys_cleanup_subset (now : Int) (s : RateLimitStore) :
    ∀ k, k ∈ storeKeys (cleanupSweep now s) → k ∈ storeKeys s := fun _ hk =>
  (List.Sublist.map Prod.fst (List.filter_sublist s)).mem hk

/-- With distinct keys, an entry surviving the sweep was in the store and
is unexpired. -/
lemma storeGet_cleanup (now : Int) (s : RateLimitStore) (k : String)
    (e' : RateLimitEntry) (hnd : (storeKeys s).Nodup)
    (h : storeGet (cleanupSweep now s) k = some e') :
    storeGet s k = some e' ∧ ¬ now > e'.resetTime := by
  induction s with
  | nil => simp [cleanupSweep, storeGet] at h
  | cons hd tl ih =>
    obtain ⟨k', v'⟩ := hd
    have hnd2 : (k' :: storeKeys tl).Nodup := by simpa [storeKeys] using hnd
    have hnd' : (storeKeys tl).Nodup := (List.nodup_cons.mp hnd2).2
    rw [cleanupSweep, List.filter_cons] at h
    by_cases hk : k' = k
    · subst hk
      by_cases hkeep : now > v'.resetTime
      · exfalso
        simp only [hkeep, not_true, decide_False, Bool.false_eq_true, if_false] at h
        have hnot : k' ∉ storeKeys tl := (List.nodup_cons.mp hnd2).1
        have hnone : storeGet (cleanupSweep now tl) k' = none :=
          storeGet_eq_none_of_not_mem _ _
            (fun hc => hnot (storeKeys_cleanup_subset now tl k' hc))
        exact Option.noConfusion (hnone.symm.trans h)
      · simp only [hkeep, not_false_eq_true, decide_True, if_true] at h
        simp only [storeGet, if_pos rfl] at h
        cases h
        exact ⟨by simp [storeGet], hkeep⟩
    · by_cases hkeep : now > v'.resetTime
      · simp only [hkeep, not_true, decide_False, Bool.false_eq_true, if_false] at h
        have := ih hnd' h
        exact ⟨by simp [storeGet, hk, this.1], this.2⟩
      · simp only [hkeep, not_false_eq_true, decide_True, if_true] at h
        simp only [storeGet, if_neg hk] at h
        have := ih hnd' h
        exact ⟨by simp [storeGet, hk, this.1], this.2⟩

/-- An unexpired entry survives the sweep. -/
lemma storeGet_cleanup_keep (now : Int) (s : RateLimitStore) (k : String)
    (e : RateLimitEntry) (hget : storeGet s k = some e)
    (hlive : ¬ now > e.resetTime) :
    storeGet (cleanupSweep now s) k = some e := by
  induction s with
  | nil => simp [storeGet] at hget
  | cons hd tl ih =>
    obtain ⟨k', v'⟩ := hd
    rw [cleanupSweep, List.filter_cons]
    by_cases hk : k' = k
    · subst hk
      simp only [storeGet, if_pos rfl] at hget
      cases hget
      simp only [hlive, not_false_eq_true, decide_True, if_true]
      simp [storeGet]
    · simp only [storeGet, if_neg hk] at hget
      by_cases hkeep : now > v'.resetTime
      · simp only [hkeep, not_true, decide_False, Bool.false_eq_true, if_false]
        exact ih hget
      · simp only [hkeep, not_false_eq_true, decide_True, if_true]
        simp only [storeGet, if_neg hk]
        exact ih hget

/-! ### Rate limiter: window algorithm lemmas and theorems -/

/-- A call with no entry or an expired entry creates a fresh window: the
stored entry gets count `1` and `resetTime = now + windowSeconds * 1000`. -/
lemma checkRateLimitFor_fresh_eq (id : String) (now : Int) (cfg : RateLimitConfig)
    (store : RateLimitStore)
    (h : storeGet store id = none ∨ ∃ e, storeGet store id = some e ∧ now > e.resetTime) :
    checkRateLimitFor id now cfg store =
      (⟨(1 : Int) ≤ cfg.maxRequests, cfg.maxRequests, max 0 (cfg.maxRequests - 1),
        now + cfg.windowSeconds * 1000⟩,
       storeSet store id ⟨1, now + cfg.windowSeconds * 1000⟩) := by
  unfold checkRateLimitFor
  rcases h with h | ⟨e, he, hexp⟩
  · rw [h]
    norm_num
  · rw [he]
    simp only [if_pos hexp]
    norm_num

/-- A call within a live window increments the stored count and keeps the
reset time. -/
lemma checkRateLimitFor_live_eq (id : String) (now : Int) (cfg : RateLimitConfig)
    (store : RateLimitStore) (e : RateLimitEntry)
    (he : storeGet store id = some e) (hlive : ¬ now > e.resetTime) :
    checkRateLimitFor id now cfg store =
      (⟨((e.count + 1 : Nat) : Int) ≤ cfg.maxRequests, cfg.maxRequests,
        max 0 (cfg.maxRequests - ((e.count + 1 : Nat) : Int)), e.resetTime⟩,
       storeSet store id ⟨e.count + 1, e.resetTime⟩) := by
  unfold checkRateLimitFor
  rw [he]
  simp only [if_neg hlive]

/-- Every call commits an increment: some count `c ≥ 1` is stored for the
client and the reported fields are computed from it. -/
lemma checkRateLimitFor_spec (id : String) (now : Int) (cfg : RateLimitConfig)
    (store : RateLimitStore) :
    ∃ c : Nat, 1 ≤ c
      ∧ (checkRateLimitFor id now cfg store).1.allowed = ((c : Int) ≤ cfg.maxRequests)
      ∧ (checkRateLimitFor id now cfg store).1.remaining
          = max 0 (cfg.maxRequests - (c : Int))
      ∧ storeGet (checkRateLimitFor id now cfg store).2 id
          = some ⟨c, (checkRateLimitFor id now cfg store).1.resetTime⟩ := by
  by_cases hfresh : storeGet store id = none
      ∨ ∃ e, storeGet store id = some e ∧ now > e.resetTime
  · refine ⟨1, le_refl 1, ?_, ?_, ?_⟩ <;>
      rw [checkRateLimitFor_fresh_eq id now cfg store hfresh] <;>
      simp [storeGet_set_self]
  · push_neg at hfresh
    obtain ⟨e, he⟩ := Option.ne_none_iff_exists'.mp hfresh.1
    have hlive : ¬ now > e.resetTime := not_lt.mpr (hfresh.2 e he)
    refine ⟨e.count + 1, by omega, ?_, ?_, ?_⟩ <;>
      rw [checkRateLimitFor_live_eq id now cfg store e he hlive] <;>
      simp [storeGet_set_self]

/-- C2: a call that finds no entry or an expired entry creates a fresh one
(count `0`, `resetTime = now + windowSeconds * 1000`) and then increments;
`allowed` holds iff the incremented count stays within `maxRequests` and
`remaining = max(0, maxRequests − count)`; with `maxRequests = 3` and
`windowSeconds = 60`, four calls for one client id at instants inside the
first call's window yield `allowed` true, true, true, false with
`remaining` 2, 1, 0, 0 — the over-limit call is itself counted. -/
theorem checkRateLimit_window_algorithm :
    (∀ (id : String) (now : Int) (cfg : RateLimitConfig) (store : RateLimitStore),
      (storeGet store id = none ∨ ∃ e, storeGet store id = some e ∧ now > e.resetTime) →
      checkRateLimitFor id now cfg store =
        (⟨(1 : Int) ≤ cfg.maxRequests, cfg.maxRequests, max 0 (cfg.maxRequests - 1),
          now + cfg.windowSeconds * 1000⟩,
         storeSet store id ⟨1, now + cfg.windowSeconds * 1000⟩))
  ∧ (∀ (id : String) (now : Int) (cfg : RateLimitConfig) (store : RateLimitStore),
      ∃ c : Nat, 1 ≤ c
        ∧ (checkRateLimitFor id now cfg store).1.allowed = ((c : Int) ≤ cfg.maxRequests)
        ∧ (checkRateLimitFor id now cfg store).1.remaining
            = max 0 (cfg.maxRequests - (c : Int)))
  ∧ (∀ (id : String) (t1 t2 t3 t4 : Int),
      t2 ≤ t1 + 60 * 1000 → t3 ≤ t1 + 60 * 1000 → t4 ≤ t1 + 60 * 1000 →
      (checkRateLimitFor id t1 ⟨3, 60, none⟩ []).1.allowed = true
      ∧ (checkRateLimitFor id t1 ⟨3, 60, none⟩ []).1.remaining = 2
      ∧ (checkRateLimitFor id t2 ⟨3, 60, none⟩
          (checkRateLimitFor id t1 ⟨3, 60, none⟩ []).2).1.allowed = true
      ∧ (checkRateLimitFor id t2 ⟨3, 60, none⟩
          (checkRateLimitFor id t1 ⟨3, 60, none⟩ []).2).1.remaining = 1
      ∧ (checkRateLimitFor id t3 ⟨3, 60, none⟩
          (checkRateLimitFor id t2 ⟨3, 60, none⟩
            (checkRateLimitFor id t1 ⟨3, 60, none⟩ []).2).2).1.allowed = true
      ∧ (checkRateLimitFor id t3 ⟨3, 60, none⟩
          (checkRateLimitFor id t2 ⟨3, 60, none⟩
            (checkRateLimitFor id t1 ⟨3, 60, none⟩ []).2).2).1.remaining = 0
      ∧ (checkRateLimitFor id t4 ⟨3, 60, none⟩
          (checkRateLimitFor id t3 ⟨3, 60, none⟩
            (checkRateLimitFor id t2 ⟨3, 60, none⟩
              (checkRateLimitFor id t1 ⟨3, 60, none⟩ []).2).2).2).1.allowed = false
      ∧ (checkRateLimitFor id t4 ⟨3, 60, none⟩
          (checkRateLimitFor id t3 ⟨3, 60, none⟩
            (checkRateLimitFor id t2 ⟨3, 60, none⟩
              (checkRateLimitFor id t1 ⟨3, 60, none⟩ []).2).2).2).1.remaining = 0) := by
  refine ⟨checkRateLimitFor_fresh_eq, ?_, ?_⟩
  · intro id now cfg store
    obtain ⟨c, h1, h2, h3, -⟩ := checkRateLimitFor_spec id now cfg store
    exact ⟨c, h1, h2, h3⟩
  · intro id t1 t2 t3 t4 ht2 ht3 ht4
    have h1 := checkRateLimitFor_fresh_eq id t1 ⟨3, 60, none⟩ [] (Or.inl rfl)
    rw [h1]
    have hg1 : storeGet (storeSet [] id ⟨1, t1 + 60 * 1000⟩) id
        = some ⟨1, t1 + 60 * 1000⟩ := storeGet_set_self _ _ _
    have h2 := checkRateLimitFor_live_eq id t2 ⟨3, 60, none⟩ _ _ hg1
      (by show ¬ t2 > t1 + 60 * 1000; omega)
    rw [h2]
    have hg2 : storeGet (storeSet (storeSet [] id ⟨1, t1 + 60 * 1000⟩) id
        ⟨1 + 1, t1 + 60 * 1000⟩) id = some ⟨1 + 1, t1 + 60 * 1000⟩ :=
      storeGet_set_self _ _ _
    have h3 := checkRateLimitFor_live_eq id t3 ⟨3, 60, none⟩ _ _ hg2
      (by show ¬ t3 > t1 + 60 * 1000; omega)
    rw [h3]
    have hg3 : storeGet (storeSet (storeSet (storeSet [] id ⟨1, t1 + 60 * 1000⟩) id
        ⟨1 + 1, t1 + 60 * 1000⟩) id ⟨1 + 1 + 1, t1 + 60 * 1000⟩) id
        = some ⟨1 + 1 + 1, t1 + 60 * 1000⟩ := storeGet_set_self _ _ _
    have h4 := checkRateLimitFor_live_eq id t4 ⟨3, 60, none⟩ _ _ hg3
      (by show ¬ t4 > t1 + 60 * 1000; omega)
    rw [h4]
    norm_num

/-- Witness for C2 at a concrete client id and instant. -/
theorem checkRateLimit_window_algorithm_witness :
    (checkRateLimitFor "1.2.3.4" 0 ⟨3, 60, none⟩ []).1.allowed = true
  ∧ (checkRateLimitFor "1.2.3.4" 0 ⟨3, 60, none⟩
      (checkRateLimitFor "1.2.3.4" 0 ⟨3, 60, none⟩
        (checkRateLimitFor "1.2.3.4" 0 ⟨3, 60, none⟩
          (checkRateLimitFor "1.2.3.4" 0 ⟨3, 60, none⟩ []).2).2).2).1.allowed = false
  ∧ checkRateLimitFor "1.2.3.4" 0 ⟨3, 60, none⟩ []
      = (⟨(1 : Int) ≤ (3 : Int), 3, max 0 ((3 : Int) - 1), 0 + 60 * 1000⟩,
         storeSet [] "1.2.3.4" ⟨1, 0 + 60 * 1000⟩) :=
  ⟨(checkRateLimit_window_algorithm.2.2 "1.2.3.4" 0 0 0 0 (by decide) (by decide) (by decide)).1,
   (checkRateLimit_window_algorithm.2.2 "1.2.3.4" 0 0 0 0
     (by decide) (by decide) (by decide)).2.2.2.2.2.2.1,
   checkRateLimit_window_algorithm.1 "1.2.3.4" 0 ⟨3, 60, none⟩ [] (Or.inl rfl)⟩

/-- C6: with `maxRequests ≤ 0` every request of every client is denied —
there is no implicit bypass. -/
theorem checkRateLimit_nonpositive_max_denies
    (r : Request) (now : Nat) (rand : String) (cfg : RateLimitConfig)
    (store : RateLimitStore) (h : cfg.maxRequests ≤ 0) :
    (checkRateLimit r now rand cfg store).1.allowed = false := by
  unfold checkRateLimit
  obtain ⟨c, hc1, hall, -, -⟩ :=
    checkRateLimitFor_spec (getClientId r cfg.trustedProxyHeader now rand)
      (now : Int) cfg store
  refine Bool.eq_false_iff.mpr ?_
  rw [Ne, hall]
  omega

/-- Witness for C6: a zero-limit configuration denies the first request. -/
theorem checkRateLimit_nonpositive_max_denies_witness :
    (checkRateLimit {} 0 "r4nd" ⟨0, 60, none⟩ []).1.allowed = false :=
  checkRateLimit_nonpositive_max_denies {} 0 "r4nd" ⟨0, 60, none⟩ [] (by decide)

/-- C7 counterexample: with `windowSeconds = 0` and `maxRequests = 1`, two
calls for one client id at the same timestamp do not each start a fresh
window: the expiry check `now > resetTime` is strict, so the second call
reuses the entry, reports count 2, and is denied — the claim predicts
`allowed = true` with count 1 for every call. -/
theorem checkRateLimit_zero_window_counterexample :
    (checkRateLimitFor "client" 0 ⟨1, 0, none⟩
      ((checkRateLimitFor "client" 0 ⟨1, 0, none⟩ []).2)).1.allowed = false
  ∧ (checkRateLimitFor "client" 0 ⟨1, 0, none⟩
      ((checkRateLimitFor "client" 0 ⟨1, 0, none⟩ []).2)).1.remaining = 0
  ∧ storeGet (checkRateLimitFor "client" 0 ⟨1, 0, none⟩
      ((checkRateLimitFor "client" 0 ⟨1, 0, none⟩ []).2)).2 "client"
      = some ⟨2, 0⟩ := by
  refine ⟨?_, ?_, ?_⟩ <;> rfl

/-- C7 amended: with `windowSeconds = 0` an entry's `resetTime` equals its
creation instant, so a call that finds no entry or whose timestamp is
strictly past the stored `resetTime` starts a fresh window (count 1,
allowed iff `maxRequests ≥ 1`, `remaining = max(0, maxRequests − 1)`); a
second call at exactly the stored `resetTime` instead reuses the entry and
reports count 2. -/
theorem checkRateLimit_zero_window_amended
    (id : String) (now : Int) (cfg : RateLimitConfig) (store : RateLimitStore)
    (hw : cfg.windowSeconds = 0)
    (h : storeGet store id = none ∨ ∃ e, storeGet store id = some e ∧ now > e.resetTime) :
    checkRateLimitFor id now cfg store =
      (⟨(1 : Int) ≤ cfg.maxRequests, cfg.maxRequests, max 0 (cfg.maxRequests - 1), now⟩,
       storeSet store id ⟨1, now⟩)
  ∧ (checkRateLimitFor id now cfg (storeSet store id ⟨1, now⟩)).1
      = ⟨(2 : Int) ≤ cfg.maxRequests, cfg.maxRequests, max 0 (cfg.maxRequests - 2), now⟩ := by
  have hz : now + cfg.windowSeconds * 1000 = now := by rw [hw]; ring
  constructor
  · have := checkRateLimitFor_fresh_eq id now cfg store h
    rw [hz] at this
    exact this
  · have hg : storeGet (storeSet store id ⟨1, now⟩) id = some ⟨1, now⟩ :=
      storeGet_set_self _ _ _
    have := checkRateLimitFor_live_eq id now cfg (storeSet store id ⟨1, now⟩)
      ⟨1, now⟩ hg (by show ¬ now > now; omega)
    rw [this]
    norm_num

/-- Witness for the amended C7 at a concrete configuration. -/
theorem checkRateLimit_zero_window_amended_witness :
    checkRateLimitFor "c" 7 ⟨1, 0, none⟩ []
      = (⟨(1 : Int) ≤ (1 : Int), 1, max 0 ((1 : Int) - 1), 7⟩,
         storeSet [] "c" ⟨1, 7⟩)
  ∧ (checkRateLimitFor "c" 7 ⟨1, 0, none⟩ (storeSet [] "c" ⟨1, 7⟩)).1
      = ⟨(2 : Int) ≤ (1 : Int), 1, max 0 ((1 : Int) - 2), 7⟩ :=
  checkRateLimit_zero_window_amended "c" 7 ⟨1, 0, none⟩ [] rfl (Or.inl rfl)

/-- C8: store invariants.  Keys stay distinct under every `checkRateLimit`
call and under the periodic sweep (at most one entry per client id); a
call never decreases any stored count — an entry either keeps its reset
time with a count that does not decrease, or is the freshly created
window of the addressed client, which requires its previous entry to be
absent or expired; the sweep only removes entries whose reset time has
passed and keeps unexpired entries verbatim. -/
theorem rateLimitStore_invariants :
    (∀ (id : String) (now : Int) (cfg : RateLimitConfig) (store : RateLimitStore),
      (storeKeys store).Nodup →
      (storeKeys (checkRateLimitFor id now cfg store).2).Nodup)
  ∧ (∀ (now : Int) (store : RateLimitStore),
      (storeKeys store).Nodup → (storeKeys (cleanupSweep now store)).Nodup)
  ∧ (∀ (id : String) (now : Int) (cfg : RateLimitConfig) (store : RateLimitStore)
      (k : String) (e' : RateLimitEntry),
      storeGet (checkRateLimitFor id now cfg store).2 k = some e' →
      (∃ e, storeGet store k = some e ∧ e.count ≤ e'.count ∧ e'.resetTime = e.resetTime)
      ∨ (k = id ∧ e'.count = 1 ∧ e'.resetTime = now + cfg.windowSeconds * 1000
        ∧ (storeGet store k = none ∨ ∃ e, storeGet store k = some e ∧ now > e.resetTime)))
  ∧ (∀ (now : Int) (store : RateLimitStore) (k : String) (e' : RateLimitEntry),
      (storeKeys store).Nodup →
      storeGet (cleanupSweep now store) k = some e' →
      storeGet store k = some e' ∧ ¬ now > e'.resetTime)
  ∧ (∀ (now : Int) (store : RateLimitStore) (k : String) (e : RateLimitEntry),
      storeGet store k = some e → ¬ now > e.resetTime →
      storeGet (cleanupSweep now store) k = some e) := by
  refine ⟨?_, storeKeys_cleanup_nodup, ?_, storeGet_cleanup, storeGet_cleanup_keep⟩
  · intro id now cfg store hnd
    unfold checkRateLimitFor
    exact storeKeys_set_nodup _ _ _ hnd
  · intro id now cfg store k e' h
    by_cases hk : k = id
    · subst hk
      by_cases hfresh : storeGet store k = none
          ∨ ∃ e, storeGet store k = some e ∧ now > e.resetTime
      · rw [checkRateLimitFor_fresh_eq k now cfg store hfresh,
          storeGet_set_self] at h
        cases h
        exact Or.inr ⟨rfl, rfl, rfl, hfresh⟩
      · push_neg at hfresh
        obtain ⟨e, he⟩ := Option.ne_none_iff_exists'.mp hfresh.1
        have hlive : ¬ now > e.resetTime := not_lt.mpr (hfresh.2 e he)
        rw [checkRateLimitFor_live_eq k now cfg store e he hlive,
          storeGet_set_self] at h
        cases h
        exact Or.inl ⟨e, he, by show e.count ≤ e.count + 1; omega, rfl⟩
    · left
      unfold checkRateLimitFor at h
      rw [storeGet_set_ne _ _ _ _ (Ne.symm hk)] at h
      exact ⟨e', h, le_refl _, rfl⟩

/-- Witness for C8 on a concrete store. -/
theorem rateLimitStore_invariants_witness :
    (storeKeys (checkRateLimitFor "a" 0 ⟨3, 60, none⟩ [("a", ⟨1, 50⟩), ("b", ⟨2, 70⟩)]).2).Nodup
  ∧ (storeKeys (cleanupSweep 60 [("a", (⟨1, 50⟩ : RateLimitEntry)), ("b", ⟨2, 70⟩)])).Nodup
  ∧ storeGet (cleanupSweep 60 [("a", (⟨1, 50⟩ : RateLimitEntry)), ("b", ⟨2, 70⟩)]) "b"
      = some ⟨2, 70⟩ :=
  ⟨rateLimitStore_invariants.1 "a" 0 ⟨3, 60, none⟩ _ (by decide),
   rateLimitStore_invariants.2.1 60 _ (by decide),
   rateLimitStore_invariants.2.2.2.2 60 _ "b" ⟨2, 70⟩ (by decide) (by decide)⟩

/-! ### Search endpoint slices (`src/pages/api/search.json.ts`) -/

/-- The `securityHeaders` object of the endpoint. -/
def securityHeaders : List (String × String) :=
  [("X-Content-Type-Options", "nosniff"),
   ("X-Frame-Options", "DENY"),
   ("X-XSS-Protection", "1; mode=block"),
   ("Content-Security-Policy", "default-src \x27none\x27; frame-ancestors \x27none\x27")]

/-- Header lookup on a response header list. -/
def headersGet (hs : List (String × String)) (k : String) : Option String :=
  (hs.find? (fun kv => kv.1 = k)).map Prod.snd

/-- A JSON error body with the `error` field and an optional `message`. -/
structure ErrorBody where
  error : String
  message : Option String := none
deriving DecidableEq, Repr

/-- An HTTP response of the endpoint slice: status, headers and JSON
error body. -/
structure ResponseRec where
  status : Nat
  headers : List (String × String)
  body : ErrorBody
deriving DecidableEq, Repr

/-- The `GET` handler of the endpoint: it ignores the request and returns
a fixed 405 response whose headers are `Content-Type: application/json`,
the security headers, and `Allow: POST`, with a JSON error body. -/
def GET : ResponseRec :=
  { status := 405
  , headers := ("Content-Type", "application/json") :: (securityHeaders ++ [("Allow", "POST")])
  , body := { error := "Use POST method for search" } }

/-- A JavaScript number: NaN, a signed infinity, or a finite value
(modelled as an exact rational). -/
inductive JSNumber where
  | nan
  | posInf
  | negInf
  | finite (q : ℚ)
deriving DecidableEq

/-- `Number.isFinite`. -/
def JSNumber.isFinite : JSNumber → Bool
  | .finite _ => true
  | _ => false

/-- A JSON value reaching the destructuring `const { query, limit = 10 }`,
plus `undefined` for an absent property; objects and arrays are opaque. -/
inductive JSValue where
  | undefined
  | null
  | bool (b : Bool)
  | num (n : JSNumber)
  | str (s : String)
  | obj
deriving DecidableEq

/-- Model of `Number.parseInt(s, 10)` as an exact integer: skip leading
whitespace, read an optional sign and then the longest leading digit run;
`none` is `NaN` (no digit found), which is exactly the non-finite result.
The model is exact-integer — it does not reproduce float rounding or the
overflow of extremely long digit runs. -/
def parseIntBase10 (s : String) : Option Int :=
  let cs := s.data.dropWhile isJsWhitespace
  let signAndRest : Int × List Char :=
    match cs with
    | '-' :: t => (-1, t)
    | '+' :: t => (1, t)
    | t => (1, t)
  let digits := signAndRest.2.takeWhile Char.isDigit
  if digits = [] then none
  else some (signAndRest.1 * (digitsToNat digits : Int))

/-- The limit-sanitising block of `POST`: start from the default `10`;
replace it with `Math.floor(limit)` when the limit is a finite number, or
with `parseInt(limit, 10)` when the limit is a string parsing to a finite
value; keep `10` in every other case. -/
def numericLimitOf (limit : JSValue) : Int :=
  match limit with
  | .num (.finite q) => ⌊q⌋
  | .str s =>
    match parseIntBase10 s with
    | some k => k
    | none => 10
  | _ => 10

/-- `Math.min(Math.max(1, numericLimit), 20)`. -/
def sanitizedLimitOf (limit : JSValue) : Int :=
  min (max 1 (numericLimitOf limit)) 20

/-- Outcome of the body-processing slice of `POST` (after origin check,
rate limiting and JSON parsing succeeded). -/
inductive PostBodyOutcome where
  | missingQuery
  | queryTooLong
  | searchCall (query : String) (limit : Int)
deriving DecidableEq, Repr

/-- The body-processing slice of `POST`: destructure
`const { query, limit = 10 } = body`; answer 400 for a falsy or
non-string query, 400 for a query over 500 characters, and otherwise call
`search` with the query and the sanitized limit. -/
def postBodyStep (query limit : JSValue) : PostBodyOutcome :=
  let limit := if limit = JSValue.undefined then JSValue.num (.finite 10) else limit
  match query with
  | .str s =>
    if s = "" then .missingQuery
    else if s.length > 500 then .queryTooLong
    else .searchCall s (sanitizedLimitOf limit)
  | _ => .missingQuery

/-- C9: the `GET` handler answers every request with status 405, a JSON
error body, and the headers `Allow: POST` and
`Content-Type: application/json` (it ignores the request entirely). -/
theorem GET_method_not_allowed :
    GET.status = 405
  ∧ headersGet GET.headers "Allow" = some "POST"
  ∧ headersGet GET.headers "Content-Type" = some "application/json"
  ∧ GET.body.error = "Use POST method for search" :=
  ⟨rfl, by rfl, by rfl, rfl⟩

/-- C10: a `limit` that is a non-finite number (NaN or an infinity) or a
string that does not parse to an integer falls back to the default 10:
the body step behaves exactly as with a literal limit 10, never yielding
a 400 because of the limit, and a valid query reaches the search call
with limit 10. -/
theorem postBodyStep_unparseable_limit_defaults
    (limit query : JSValue)
    (h : (∃ n, limit = .num n ∧ n.isFinite = false)
       ∨ (∃ s, limit = .str s ∧ parseIntBase10 s = none)) :
    postBodyStep query limit = postBodyStep query (.num (.finite 10))
  ∧ (∀ q : String, query = .str q → ¬ q = "" → q.length ≤ 500 →
      postBodyStep query limit = .searchCall q 10) := by
  have hnum : numericLimitOf limit = 10 := by
    rcases h with ⟨n, rfl, hn⟩ | ⟨s, rfl, hs⟩
    · cases n <;> simp_all [numericLimitOf, JSNumber.isFinite]
    · simp [numericLimitOf, hs]
  have hne : ¬ limit = JSValue.undefined := by
    rcases h with ⟨n, rfl, -⟩ | ⟨s, rfl, -⟩ <;> simp
  have hsan : sanitizedLimitOf limit = 10 := by
    rw [sanitizedLimitOf, hnum]
    norm_num
  have hsan10 : sanitizedLimitOf (JSValue.num (.finite 10)) = 10 := by
    rw [sanitizedLimitOf]
    norm_num [numericLimitOf]
  constructor
  · unfold postBodyStep
    rw [if_neg hne, if_neg (by simp : ¬ JSValue.num (.finite 10) = JSValue.undefined)]
    cases query <;> simp [hsan, hsan10]
  · intro q hq hq0 hlen
    subst hq
    unfold postBodyStep
    rw [if_neg hne]
    simp only [hsan]
    rw [if_neg hq0, if_neg (by omega : ¬ q.length > 500)]

/-- Witness for C10: the string limit `abc` and the NaN limit both reach
the search call with the default 10. -/
theorem postBodyStep_unparseable_limit_defaults_witness :
    postBodyStep (.str "hello") (.str "abc") = .searchCall "hello" 10
  ∧ postBodyStep (.str "hello") (.num .nan) = .searchCall "hello" 10 :=
  ⟨(postBodyStep_unparseable_limit_defaults (.str "abc") (.str "hello")
      (Or.inr ⟨"abc", rfl, by rfl⟩)).2 "hello" rfl (by decide) (by decide),
   (postBodyStep_unparseable_limit_defaults (.num .nan) (.str "hello")
      (Or.inl ⟨.nan, rfl, rfl⟩)).2 "hello" rfl (by decide) (by decide)⟩

end SemanticDocs
